import Mathlib

/-!
Verification development for the sovereign-data-fortress ingestion core:
the circuit breaker (`pipeline_monitoring/circuit_breaker.py`), the
contract validator (`data_contracts/validators/contract_validator.py`
with the `CryptoPriceContract` schema from
`data_contracts/schemas/crypto_price.py`), and the pipeline orchestrator
(`ingestion/pipeline.py`).

Modelling conventions:
* Timestamps are `Int` seconds (`datetime.now()` at second granularity).
* Python `timedelta.seconds` for a delta of `d` whole seconds is the
  normalized seconds component `d % 86400` (in `[0, 86400)`).
* Decimal amounts are `ℚ`; pydantic v1 converts incoming numbers with
  `Decimal(str(v))`, so a numeric literal's mathematical value is kept.
* Exceptions become `Except String`; mutation becomes explicit state
  passing; the alert callback becomes the list of invocations it would
  receive (guarded by whether a callback was installed).
-/

namespace Fortress

/-- `CircuitState` from `circuit_breaker.py`: CLOSED / OPEN / HALF_OPEN. -/
inductive CircuitState where
  | Closed
  | Open
  | HalfOpen
deriving DecidableEq, Repr

/-- `CircuitState.value`: the string payload of the Python enum. -/
def CircuitState.value : CircuitState → String
  | .Closed => "closed"
  | .Open => "open"
  | .HalfOpen => "half_open"

/-- Entries of `failure_history`: `{timestamp, error, error_type, failure_count}`. -/
structure FailureRecord where
  timestamp : Int
  error : String
  errorType : String
  failureCount : Nat
deriving DecidableEq, Repr

/-- Entries of `success_history`: `{timestamp, state}` (state as its string value). -/
structure SuccessRecord where
  timestamp : Int
  state : String
deriving DecidableEq, Repr

/-- One invocation of the alert callback: `(name, error, state, is_critical)`. -/
structure Alert where
  name : String
  error : String
  state : CircuitState
  isCritical : Bool
deriving DecidableEq, Repr

/-- The mutable state of `CircuitBreaker`.  `alertCallbackSet` records whether
an `alert_callback` was supplied at construction (the code guards every
invocation with `if self.alert_callback:`). -/
structure CircuitBreaker where
  name : String
  failureThreshold : Nat
  recoveryTimeout : Nat
  alertCallbackSet : Bool
  state : CircuitState
  failureCount : Nat
  lastFailureTime : Option Int
  lastSuccessTime : Option Int
  failureHistory : List FailureRecord
  successHistory : List SuccessRecord
deriving DecidableEq, Repr

/-- `CircuitBreaker.__init__`: state CLOSED, zero counters, empty histories. -/
def mkCircuitBreaker (name : String) (failureThreshold recoveryTimeout : Nat)
    (alertCallbackSet : Bool) : CircuitBreaker :=
  ⟨name, failureThreshold, recoveryTimeout, alertCallbackSet,
   .Closed, 0, none, none, [], []⟩

/-- Python `timedelta(seconds = d).seconds`: the normalized seconds component,
`d % 86400`, always in `[0, 86400)`. -/
def tdSeconds (d : Int) : Int :=
  d % 86400

/-- `CircuitBreaker.is_open`, at current time `now`: returns the boolean answer
and the (possibly lazily transitioned) breaker.  In state OPEN with a recorded
`last_failure_time`, computes `elapsed = (now - last_failure_time).seconds` and
moves to HALF_OPEN returning `False` exactly when `elapsed > recovery_timeout`. -/
def isOpen (cb : CircuitBreaker) (now : Int) : Bool × CircuitBreaker :=
  match cb.state with
  | .Open =>
    match cb.lastFailureTime with
    | some t =>
      let elapsed := tdSeconds (now - t)
      if elapsed > (cb.recoveryTimeout : Int) then
        (false, { cb with state := .HalfOpen })
      else
        (true, cb)
    | none => (true, cb)
  | _ => (false, cb)

/-- `CircuitBreaker.record_success`: stamps `last_success_time`, appends a
success entry (with the state value *before* any transition), and in
HALF_OPEN transitions to CLOSED resetting `failure_count`. -/
def recordSuccess (cb : CircuitBreaker) (now : Int) : CircuitBreaker :=
  let cb₁ := { cb with
    lastSuccessTime := some now,
    successHistory := cb.successHistory ++ [⟨now, cb.state.value⟩] }
  if cb₁.state = .HalfOpen then
    { cb₁ with state := .Closed, failureCount := 0 }
  else
    cb₁

/-- `CircuitBreaker._trip_circuit`: sets the state to OPEN and, when a callback
is installed, fires a critical alert. -/
def tripCircuit (cb : CircuitBreaker) (errMsg : String) :
    CircuitBreaker × List Alert :=
  let cb₁ := { cb with state := CircuitState.Open }
  (cb₁, if cb₁.alertCallbackSet then [⟨cb₁.name, errMsg, cb₁.state, true⟩] else [])

/-- `CircuitBreaker.record_failure`: stamps `last_failure_time`, increments
`failure_count`, appends a failure entry, trips when
`failure_count >= failure_threshold`, and always fires the (non-critical)
alert afterwards.  Returns the new breaker and the alert invocations in
order. -/
def recordFailure (cb : CircuitBreaker) (now : Int) (errMsg errType : String) :
    CircuitBreaker × List Alert :=
  let cb₁ := { cb with
    lastFailureTime := some now,
    failureCount := cb.failureCount + 1,
    failureHistory := cb.failureHistory ++
      [⟨now, errMsg, errType, cb.failureCount + 1⟩] }
  let tripped :=
    if cb₁.failureThreshold ≤ cb₁.failureCount then
      tripCircuit cb₁ errMsg
    else
      (cb₁, [])
  let cb₂ := tripped.1
  (cb₂, tripped.2 ++
    (if cb₂.alertCallbackSet then [⟨cb₂.name, errMsg, cb₂.state, false⟩] else []))

/-- `CircuitBreaker.reset`: unconditionally CLOSED with `failure_count = 0`. -/
def resetBreaker (cb : CircuitBreaker) : CircuitBreaker :=
  { cb with state := CircuitState.Closed, failureCount := 0 }

/-- Breaker states reachable from an initial breaker through the public
operations (`is_open`'s lazy transition included). -/
inductive Reachable (cb₀ : CircuitBreaker) : CircuitBreaker → Prop where
  | init : Reachable cb₀ cb₀
  | stepIsOpen (cb : CircuitBreaker) (now : Int) :
      Reachable cb₀ cb → Reachable cb₀ (isOpen cb now).2
  | stepSuccess (cb : CircuitBreaker) (now : Int) :
      Reachable cb₀ cb → Reachable cb₀ (recordSuccess cb now)
  | stepFailure (cb : CircuitBreaker) (now : Int) (errMsg errType : String) :
      Reachable cb₀ cb → Reachable cb₀ (recordFailure cb now errMsg errType).1
  | stepReset (cb : CircuitBreaker) :
      Reachable cb₀ cb → Reachable cb₀ (resetBreaker cb)

/-! ## Contract schema and validator

`CryptoPriceContract` (`data_contracts/schemas/crypto_price.py`) is a
pydantic v1 model.  A record arrives as a dict; a missing key means the
field is absent (`"field required"` for the three required fields, skipped
validation for the two optional ones).  pydantic collects at most one error
per field (field constraints run before the custom `@validator`s and a
failed field skips its remaining validators), lists fields in declaration
order, and `_format_validation_error` renders them as
`"  - {field}: {msg}"` lines joined by newlines. -/

/-- A crypto-price record as handed to `validate_single`: each field is
`none` when the key is absent from the dict (for `volume` / `market_cap`
an explicit Python `None` behaves the same: pydantic skips the checks). -/
structure CryptoRecord where
  symbol : Option String
  price : Option ℚ
  timestamp : Option Int
  volume : Option ℚ
  marketCap : Option ℚ
deriving DecidableEq, Repr, Inhabited

/-- Python `str.isupper` restricted to the ASCII strings this repository
feeds it: true iff there is at least one letter and no lower-case letter. -/
def pyIsUpper (s : String) : Bool :=
  s.data.any (fun c => c.isAlpha) && s.data.all (fun c => !c.isLower)

/-- A rational carries at most 2 decimal places (the `decimal_places=2`
constraint on `price`; pydantic builds the `Decimal` from the number's
shortest string form, so the mathematical value is what is inspected). -/
def decimalPlacesLe2 (q : ℚ) : Bool :=
  (q * 100).den == 1

/-- Round to the nearest integer, ties to even (the rounding used by
Python's fixed-point string formatting). -/
def roundHalfEven (q : ℚ) : ℤ :=
  let f := ⌊q⌋
  let r := q - f
  if r < 1/2 then f
  else if 1/2 < r then f + 1
  else if f % 2 = 0 then f else f + 1

/-- Python `f"{q:.1f}"` for a non-negative rational: one decimal digit,
ties to even.  (Binary-float noise below the displayed digit is ignored;
nothing proved here depends on these rendered digits.) -/
def fmtTenths (q : ℚ) : String :=
  let n := (roundHalfEven (q * 10)).natAbs
  toString (n / 10) ++ "." ++ toString (n % 10)

/-- Validation of the `symbol` field: required, length 2–10, then the
custom `symbol_must_be_uppercase` validator. -/
def symbolError (s : Option String) : Option String :=
  match s with
  | none => some "field required"
  | some v =>
    if v.length < 2 then some "ensure this value has at least 2 characters"
    else if 10 < v.length then some "ensure this value has at most 10 characters"
    else if !pyIsUpper v then some ("Symbol must be uppercase, got: " ++ v)
    else none

/-- `str(Decimal)` for the values that reach the custom price validator
(at most two decimal places, which the `decimal_places=2` check has
already enforced): digits without trailing decimal zeros. -/
def ratDecimalStr (v : ℚ) : String :=
  if v.den = 1 then toString v.num
  else if (v * 10).den = 1 then
    (toString (v * 10).num).dropRight 1 ++ "." ++
      toString ((v * 10).num % 10).natAbs
  else
    (toString (v * 100).num).dropRight 2 ++ "." ++
      toString (((v * 100).num % 100).natAbs / 10) ++
      toString ((v * 100).num % 10).natAbs

/-- Validation of the `price` field: required, `gt=0`, `decimal_places=2`,
then the custom `price_must_be_reasonable` validator (anomaly bounds
`(0.01, 1_000_000)`). -/
def priceError (p : Option ℚ) : Option String :=
  match p with
  | none => some "field required"
  | some v =>
    if ¬(0 < v) then some "ensure this value is greater than 0"
    else if !decimalPlacesLe2 v then
      some "ensure that there are no more than 2 decimal places"
    else if 1000000 < v then some ("Price suspiciously high: $" ++ ratDecimalStr v)
    else if v < 1/100 then some ("Price suspiciously low: $" ++ ratDecimalStr v)
    else none

/-- Validation of the `timestamp` field: required, then the custom
`timestamp_must_be_recent` validator: `age_hours > 24` (i.e. more than
86400 seconds old) rejects, and a future timestamp rejects. -/
def timestampError (t : Option Int) (now : Int) : Option String :=
  match t with
  | none => some "field required"
  | some v =>
    if 86400 < now - v then
      some ("Data is " ++ fmtTenths (((now - v : ℤ) : ℚ) / 3600) ++
        " hours old. Expected recent data.")
    else if now < v then some ("Timestamp is in the future: " ++ toString v)
    else none

/-- Validation of the optional `volume` field: `ge=0` when present. -/
def volumeError (v : Option ℚ) : Option String :=
  match v with
  | none => none
  | some x =>
    if x < 0 then some "ensure this value is greater than or equal to 0" else none

/-- Validation of the optional `market_cap` field: `ge=0` when present. -/
def marketCapError (v : Option ℚ) : Option String :=
  match v with
  | none => none
  | some x =>
    if x < 0 then some "ensure this value is greater than or equal to 0" else none

/-- The per-field errors of a record, in pydantic's field declaration
order, each already rendered as a `"  - {field}: {msg}"` line. -/
def fieldErrors (r : CryptoRecord) (now : Int) : List String :=
  [("symbol", symbolError r.symbol),
   ("price", priceError r.price),
   ("timestamp", timestampError r.timestamp now),
   ("volume", volumeError r.volume),
   ("market_cap", marketCapError r.marketCap)].filterMap
    (fun p => p.2.map (fun m => "  - " ++ p.1 ++ ": " ++ m))

/-- `ContractValidator.validate_single`: `(True, "")` when the model
constructs, otherwise `(False, formatted error list)`. -/
def validateSingle (r : CryptoRecord) (now : Int) : Bool × String :=
  let errs := fieldErrors r now
  if errs.isEmpty then (true, "") else (false, String.intercalate "\n" errs)

/-- One entry of the `violations` list built by `validate_batch`:
`{record_index, record, error, timestamp}`. -/
structure Violation where
  recordIndex : Nat
  record : CryptoRecord
  error : String
  timestamp : Int
deriving DecidableEq, Repr, Inhabited

/-- A canonical rendering of the record dict for the fail-fast message
(stands in for Python's dict repr; no theorem inspects it). -/
def reprRecord (r : CryptoRecord) : String :=
  "\x7bsymbol: " ++ toString r.symbol ++ ", price: " ++ toString r.price ++
    ", timestamp: " ++ toString r.timestamp ++ ", volume: " ++
    toString r.volume ++ ", market_cap: " ++ toString r.marketCap ++ "\x7d"

/-- The `DataContractViolation` message raised in fail-fast mode. -/
def failFastMsg (idx : Nat) (errMsg : String) (r : CryptoRecord) : String :=
  "Data contract violation at record " ++ toString idx ++ ":\n" ++ errMsg ++
    "\nRecord: " ++ reprRecord r ++
    "\n\nPipeline STOPPED to prevent bad data propagation."

/-- The `DataContractViolation` message raised when the violation cap is
reached: carries the count and the first violation's error. -/
def tooManyMsg (count : Nat) (firstErr : String) : String :=
  "Too many violations (" ++ toString count ++ ").\nPipeline STOPPED.\n" ++
    "First violation: " ++ firstErr

/-- `ContractValidator._generate_summary`. -/
def generateSummary (total valid invalid : Nat) : String :=
  if invalid = 0 then
    "✅ All " ++ toString total ++ " records passed validation"
  else
    "⚠️  " ++ toString invalid ++ "/" ++ toString total ++
      " records failed validation (" ++
      fmtTenths (((invalid : ℚ) / (total : ℚ)) * 100) ++ "%)\n" ++
      "Valid: " ++ toString valid ++ ", Invalid: " ++ toString invalid

/-- The dict returned by `validate_batch` when it does not raise. -/
structure BatchResult where
  valid : Bool
  totalRecords : Nat
  validRecords : Nat
  invalidRecords : Nat
  violations : List Violation
  violationRate : ℚ
  summary : String
deriving DecidableEq, Repr, Inhabited

/-- The loop of `ContractValidator.validate_batch`: walks the records with
the running index, valid count and accumulated violations; raising becomes
`Except.error`.  The cap check happens only after a violation is appended,
and compares the *accumulated* count (`len(violations)`) against
`max_violations`. -/
def validateBatchGo (now : Int) (failFast : Bool) (cap : Nat) :
    List CryptoRecord → Nat → Nat → List Violation →
    Except String (Nat × List Violation)
  | [], _, validCount, violations => .ok (validCount, violations)
  | r :: rest, idx, validCount, violations =>
    let sp := validateSingle r now
    if sp.1 then
      validateBatchGo now failFast cap rest (idx + 1) (validCount + 1) violations
    else
      let violations' := violations ++ [⟨idx, r, sp.2, now⟩]
      if failFast then
        .error (failFastMsg idx sp.2 r)
      else if cap ≤ violations'.length then
        .error (tooManyMsg violations'.length (violations'.headD default).error)
      else
        validateBatchGo now failFast cap rest (idx + 1) validCount violations'

/-- `ContractValidator.validate_batch`: on completion, assembles the result
dict (`invalid = total - valid`, `violation_rate = invalid/total` guarding
division by zero). -/
def validateBatch (l : List CryptoRecord) (failFast : Bool) (cap : Nat)
    (now : Int) : Except String BatchResult :=
  match validateBatchGo now failFast cap l 0 0 [] with
  | .error e => .error e
  | .ok (validCount, violations) =>
    let total := l.length
    let invalid := total - validCount
    .ok ⟨invalid == 0, total, validCount, invalid, violations,
      if 0 < total then (invalid : ℚ) / (total : ℚ) else 0,
      generateSummary total validCount invalid⟩

/-! ## Pipeline orchestrator

`IngestionPipeline.run` (`ingestion/pipeline.py`).  The outside
collaborators (source API, MinIO destination) are I/O; a `PipelineEnv`
records the outcomes their calls would produce during the run.  The run
returns the result dict (or the raised `CircuitBreakerError` as
`Except.error`), the breaker after the run, and the observable events:
what was handed to `destination.write_records` and the breaker
recordings. -/

/-- The `{status, message}` dict returned by `check_connection`. -/
structure ConnStatus where
  status : String
  message : String
deriving DecidableEq, Repr

/-- One raw record from `source.read_records()`; `none` marks an absent
key.  `symbol` / `current_price` are accessed with `[]` (KeyError skips
the record during contract conversion), the other two with `.get`. -/
structure RawRecord where
  symbol : Option String
  currentPrice : Option ℚ
  totalVolume : Option ℚ
  marketCap : Option ℚ
deriving DecidableEq, Repr

/-- The dict returned by `destination.write_records`. -/
structure WriteResult where
  status : String
  recordsWritten : Nat
  filePath : String
  message : Option String
deriving DecidableEq, Repr

/-- Outcomes of the collaborator calls made during one pipeline run. -/
structure PipelineEnv where
  sourceStatus : ConnStatus
  destStatus : ConnStatus
  records : List RawRecord
  writeResult : WriteResult
deriving DecidableEq, Repr

/-- The contract-shape conversion inside the validate stage: each record
becomes `{symbol, price, timestamp: now, volume, market_cap}`; a KeyError
on `symbol` or `current_price` skips the record. -/
def convertRecords (l : List RawRecord) (now : Int) : List CryptoRecord :=
  l.filterMap fun r =>
    match r.symbol, r.currentPrice with
    | some s, some p => some ⟨some s, some p, some now, r.totalVolume, r.marketCap⟩
    | _, _ => none

/-- The result dict of `run`: the success dict carries
`records_extracted`, `records_loaded`, `file_path` and the breaker state
value; the failed dict carries `error`, the breaker state value and
`failure_count`.  (`duration_seconds` is wall-clock time, not modelled.) -/
inductive RunResult where
  | success (recordsExtracted recordsLoaded : Nat) (filePath : String)
      (circuitBreakerState : String)
  | failed (error : String) (circuitBreakerState : String) (failureCount : Nat)
deriving DecidableEq, Repr

/-- Observable events of a run, in order: the records handed to
`destination.write_records` and the breaker recordings. -/
inductive PipelineEvent where
  | wroteRecords (records : List RawRecord) (streamName : String)
  | recordedFailure (msg : String)
  | recordedSuccess
deriving DecidableEq, Repr

/-- Whether an event is a `record_failure` call on the breaker. -/
def isFailureEvent : PipelineEvent → Bool
  | .recordedFailure _ => true
  | _ => false

/-- What one call of `IngestionPipeline.run` produces. -/
structure RunOutput where
  result : Except String RunResult
  breaker : CircuitBreaker
  events : List PipelineEvent
deriving Repr

/-- The `CircuitBreakerError` message raised by the gate check (the
`datetime` rendering of `last_failure_time` is abstracted to its numeric
timestamp). -/
def circuitOpenMsg (cb : CircuitBreaker) : String :=
  "🔴 Pipeline stopped by circuit breaker\nState: " ++ cb.state.value ++
    "\nFailures: " ++ toString cb.failureCount ++
    "\nLast failure: " ++ toString cb.lastFailureTime ++
    "\n\nManual intervention required.\n" ++
    "After fixing issues, reset with: breaker.reset()"

/-- The `except` branch of `run`: `breaker.record_failure(e)` once, then
the failed result dict (state read after the recording). -/
def runFailed (cb : CircuitBreaker) (now : Int) (msg : String)
    (evts : List PipelineEvent) : RunOutput :=
  let cb' := (recordFailure cb now msg "Exception").1
  ⟨.ok (.failed msg cb'.state.value cb'.failureCount), cb',
    evts ++ [.recordedFailure msg]⟩

/-- The load stage and the success epilogue (steps 4–5 of `run`). -/
def runLoad (cb : CircuitBreaker) (env : PipelineEnv) (now : Int) : RunOutput :=
  let evts := [PipelineEvent.wroteRecords env.records "crypto_prices"]
  if env.writeResult.status ≠ "success" then
    runFailed cb now
      ("Load failed: " ++ env.writeResult.message.getD "Unknown error") evts
  else
    let cb' := recordSuccess cb now
    ⟨.ok (.success env.records.length env.writeResult.recordsWritten
        env.writeResult.filePath cb'.state.value), cb',
      evts ++ [.recordedSuccess]⟩

/-- `IngestionPipeline.run(validate_data)`: gate check first (raising
`CircuitBreakerError` without touching anything else), then connection
checks, extraction, optional contract validation with `fail_fast=False`
and `max_violations=5`, then the load; any stage failure lands in the
`except` branch exactly once. -/
def run (cb : CircuitBreaker) (env : PipelineEnv) (validateData : Bool)
    (now : Int) : RunOutput :=
  let gate := isOpen cb now
  if gate.1 then
    ⟨.error (circuitOpenMsg gate.2), gate.2, []⟩
  else
    let cb₁ := gate.2
    if env.sourceStatus.status ≠ "success" then
      runFailed cb₁ now ("Source connection failed: " ++ env.sourceStatus.message) []
    else if env.destStatus.status ≠ "success" then
      runFailed cb₁ now
        ("Destination connection failed: " ++ env.destStatus.message) []
    else if env.records.isEmpty then
      runFailed cb₁ now "No records extracted from source" []
    else if validateData then
      match validateBatch (convertRecords env.records now) false 5 now with
      | .error e => runFailed cb₁ now ("Data contract violation: " ++ e) []
      | .ok _ => runLoad cb₁ env now
    else
      runLoad cb₁ env now

/-- The pipeline stages distinguished by the spec. -/
inductive Stage where
  | GateCheck
  | ConnectionCheck
  | Extract
  | Validate
  | Load
deriving DecidableEq, Repr

/-- The first stage to fail after the gate, with the error message `run`
raises for it: the same cascade of checks `run` performs. -/
def firstFailure (env : PipelineEnv) (validateData : Bool) (now : Int) :
    Option (Stage × String) :=
  if env.sourceStatus.status ≠ "success" then
    some (.ConnectionCheck, "Source connection failed: " ++ env.sourceStatus.message)
  else if env.destStatus.status ≠ "success" then
    some (.ConnectionCheck, "Destination connection failed: " ++ env.destStatus.message)
  else if env.records.isEmpty then
    some (.Extract, "No records extracted from source")
  else
    let loadCheck : Option (Stage × String) :=
      if env.writeResult.status ≠ "success" then
        some (.Load, "Load failed: " ++ env.writeResult.message.getD "Unknown error")
      else
        none
    if validateData then
      match validateBatch (convertRecords env.records now) false 5 now with
      | .error e => some (.Validate, "Data contract violation: " ++ e)
      | .ok _ => loadCheck
    else loadCheck

/-- A failure message begins with the wording that names its stage. -/
def stageNamedBy (st : Stage) (msg : String) : Prop :=
  match st with
  | .GateCheck => ∃ r, msg = "🔴 Pipeline stopped by circuit breaker" ++ r
  | .ConnectionCheck =>
      (∃ r, msg = "Source connection failed: " ++ r) ∨
      (∃ r, msg = "Destination connection failed: " ++ r)
  | .Extract => msg = "No records extracted from source"
  | .Validate => ∃ r, msg = "Data contract violation: " ++ r
  | .Load => ∃ r, msg = "Load failed: " ++ r

/-! ## Circuit breaker theorems -/

/-- C1 (counterexample): a breaker that tripped at time 0 with
`recoveryTimeout = 300`, probed at time 300 — the elapsed time since the
last failure equals `recoveryTimeout` exactly, yet `is_open()` returns
`true` and leaves the state Open, where the claim promises `false` and a
transition to HalfOpen (the code requires `elapsed > recovery_timeout`,
strictly). -/
theorem isOpen_at_exact_timeout_stays_open :
    ((recordFailure (mkCircuitBreaker "demo" 1 300 false) 0 "boom" "Exception").1.state
        = CircuitState.Open) ∧
    ((recordFailure (mkCircuitBreaker "demo" 1 300 false) 0 "boom" "Exception").1.lastFailureTime
        = some 0) ∧
    tdSeconds (300 - 0)
      = ((recordFailure (mkCircuitBreaker "demo" 1 300 false) 0 "boom" "Exception").1.recoveryTimeout : Int) ∧
    (isOpen (recordFailure (mkCircuitBreaker "demo" 1 300 false) 0 "boom" "Exception").1 300).1
      = true ∧
    (isOpen (recordFailure (mkCircuitBreaker "demo" 1 300 false) 0 "boom" "Exception").1 300).2
      = (recordFailure (mkCircuitBreaker "demo" 1 300 false) 0 "boom" "Exception").1 := by
  decide

/-- C1 (amended): for a breaker in state Open with a recorded
`lastFailureTime = t`, `is_open()` at time `now` computes the elapsed
seconds component `(now - t) % 86400`; it transitions to HalfOpen and
returns `false` exactly when that value strictly exceeds
`recoveryTimeout`, and returns `true` leaving the breaker unchanged when
it is at most `recoveryTimeout`; in state Closed or HalfOpen it returns
`false` and changes nothing. -/
theorem isOpen_spec (cb : CircuitBreaker) (now : Int) :
    (∀ t, cb.state = CircuitState.Open → cb.lastFailureTime = some t →
      ((cb.recoveryTimeout : Int) < tdSeconds (now - t) →
        isOpen cb now = (false, { cb with state := CircuitState.HalfOpen })) ∧
      (tdSeconds (now - t) ≤ (cb.recoveryTimeout : Int) →
        isOpen cb now = (true, cb))) ∧
    ((cb.state = CircuitState.Closed ∨ cb.state = CircuitState.HalfOpen) →
      isOpen cb now = (false, cb)) := by
  constructor
  · intro t hs ht
    constructor <;> intro h
    · simp [isOpen, hs, ht, h]
    · simp [isOpen, hs, ht, not_lt.mpr h]
  · rintro (hs | hs) <;> simp [isOpen, hs]

/-- C1 (amended, witness): the same breaker probed one second past the
timeout does transition to HalfOpen and answer `false`, and probed exactly
at the timeout answers `true` unchanged. -/
theorem isOpen_spec_witness :
    isOpen (recordFailure (mkCircuitBreaker "demo" 1 300 false) 0 "boom" "Exception").1 301
      = (false,
        { (recordFailure (mkCircuitBreaker "demo" 1 300 false) 0 "boom" "Exception").1 with
            state := CircuitState.HalfOpen }) ∧
    isOpen (recordFailure (mkCircuitBreaker "demo" 1 300 false) 0 "boom" "Exception").1 300
      = (true, (recordFailure (mkCircuitBreaker "demo" 1 300 false) 0 "boom" "Exception").1) :=
  ⟨((isOpen_spec _ 301).1 0 (by decide) (by decide)).1 (by decide),
   ((isOpen_spec _ 300).1 0 (by decide) (by decide)).2 (by decide)⟩

/-- C4: `record_success()` stamps `lastSuccessTime`, appends a success
entry (carrying the pre-transition state value), turns HalfOpen into
Closed with `failureCount = 0`, and leaves a Closed breaker Closed. -/
theorem recordSuccess_spec (cb : CircuitBreaker) (now : Int) :
    (recordSuccess cb now).lastSuccessTime = some now ∧
    (recordSuccess cb now).successHistory
      = cb.successHistory ++ [⟨now, cb.state.value⟩] ∧
    (cb.state = CircuitState.HalfOpen →
      (recordSuccess cb now).state = CircuitState.Closed ∧
      (recordSuccess cb now).failureCount = 0) ∧
    (cb.state = CircuitState.Closed →
      (recordSuccess cb now).state = CircuitState.Closed) := by
  cases hc : cb.state <;>
    simp [recordSuccess, hc]

/-- C4 (witness): a concrete HalfOpen breaker recovers to Closed with a
zero failure count, and the success entry is appended. -/
theorem recordSuccess_spec_witness :
    (recordSuccess ⟨"b", 3, 300, false, CircuitState.HalfOpen, 3, some 0, none, [], []⟩ 5).state
        = CircuitState.Closed ∧
    (recordSuccess ⟨"b", 3, 300, false, CircuitState.HalfOpen, 3, some 0, none, [], []⟩ 5).failureCount
        = 0 :=
  (recordSuccess_spec ⟨"b", 3, 300, false, CircuitState.HalfOpen, 3, some 0, none, [], []⟩ 5).2.2.1
    (by decide)

/-- C7: `record_failure` stamps `lastFailureTime`, increments
`failureCount`, appends the failure entry; when the new count reaches the
threshold the breaker trips to Open and (with a callback installed) a
critical alert fires; below the threshold the only alert is the
non-critical one; and with a callback installed the non-critical alert
fires on every failure, trip or not. -/
theorem recordFailure_spec (cb : CircuitBreaker) (now : Int) (msg etype : String) :
    ((recordFailure cb now msg etype).1.lastFailureTime = some now) ∧
    ((recordFailure cb now msg etype).1.failureCount = cb.failureCount + 1) ∧
    ((recordFailure cb now msg etype).1.failureHistory
      = cb.failureHistory ++ [⟨now, msg, etype, cb.failureCount + 1⟩]) ∧
    (cb.failureThreshold ≤ cb.failureCount + 1 →
      (recordFailure cb now msg etype).1.state = CircuitState.Open ∧
      (cb.alertCallbackSet = true →
        Alert.mk cb.name msg CircuitState.Open true ∈ (recordFailure cb now msg etype).2)) ∧
    (cb.failureCount + 1 < cb.failureThreshold →
      (cb.alertCallbackSet = true →
        (recordFailure cb now msg etype).2 = [⟨cb.name, msg, cb.state, false⟩])) ∧
    (cb.alertCallbackSet = true →
      Alert.mk cb.name msg (recordFailure cb now msg etype).1.state false
        ∈ (recordFailure cb now msg etype).2) := by
  by_cases h : cb.failureThreshold ≤ cb.failureCount + 1 <;>
    cases hcb : cb.alertCallbackSet <;>
      simp [recordFailure, tripCircuit, h, hcb, not_le.mp, lt_of_not_le]

/-- C7 (witness): a breaker one failure short of its threshold (with a
callback) trips to Open, firing the critical alert and the always-on
non-critical alert. -/
theorem recordFailure_spec_witness :
    ((recordFailure ⟨"b", 2, 300, true, CircuitState.Closed, 1, none, none, [], []⟩ 7 "x" "E").1.state
        = CircuitState.Open ∧
      (Alert.mk "b" "x" CircuitState.Open true
        ∈ (recordFailure ⟨"b", 2, 300, true, CircuitState.Closed, 1, none, none, [], []⟩ 7 "x" "E").2)) ∧
    (Alert.mk "b" "x"
        (recordFailure ⟨"b", 2, 300, true, CircuitState.Closed, 1, none, none, [], []⟩ 7 "x" "E").1.state
        false
      ∈ (recordFailure ⟨"b", 2, 300, true, CircuitState.Closed, 1, none, none, [], []⟩ 7 "x" "E").2) :=
  ⟨⟨((recordFailure_spec ⟨"b", 2, 300, true, CircuitState.Closed, 1, none, none, [], []⟩ 7 "x" "E").2.2.2.1
        (by decide)).1,
    ((recordFailure_spec ⟨"b", 2, 300, true, CircuitState.Closed, 1, none, none, [], []⟩ 7 "x" "E").2.2.2.1
        (by decide)).2 (by decide)⟩,
   (recordFailure_spec ⟨"b", 2, 300, true, CircuitState.Closed, 1, none, none, [], []⟩ 7 "x" "E").2.2.2.2.2
     (by decide)⟩

/-- The inductive invariant of the breaker state machine: away from
Closed, the failure count has reached the threshold. -/
def BreakerInv (cb : CircuitBreaker) : Prop :=
  (cb.state = CircuitState.Open ∨ cb.state = CircuitState.HalfOpen) →
    cb.failureThreshold ≤ cb.failureCount

lemma breakerInv_isOpen (cb : CircuitBreaker) (now : Int) (h : BreakerInv cb) :
    BreakerInv (isOpen cb now).2 := by
  unfold isOpen
  cases hs : cb.state <;> simp
  · exact h
  · cases ht : cb.lastFailureTime <;> simp
    · intro _
      exact h (Or.inl hs)
    · split <;> intro _ <;> exact h (Or.inl hs)
  · exact h

lemma breakerInv_recordSuccess (cb : CircuitBreaker) (now : Int)
    (h : BreakerInv cb) : BreakerInv (recordSuccess cb now) := by
  by_cases hs : cb.state = CircuitState.HalfOpen
  · simp [BreakerInv, recordSuccess, hs]
  · simpa [BreakerInv, recordSuccess, hs] using h

lemma breakerInv_recordFailure (cb : CircuitBreaker) (now : Int)
    (msg etype : String) (h : BreakerInv cb) :
    BreakerInv (recordFailure cb now msg etype).1 := by
  by_cases htr : cb.failureThreshold ≤ cb.failureCount + 1
  · intro _
    simpa [recordFailure, tripCircuit, htr] using htr
  · intro hmem
    have hmem' : cb.state = CircuitState.Open ∨ cb.state = CircuitState.HalfOpen := by
      simpa [recordFailure, tripCircuit, htr] using hmem
    have := h hmem'
    simp [recordFailure, tripCircuit, htr]
    omega

lemma breakerInv_reset (cb : CircuitBreaker) : BreakerInv (resetBreaker cb) := by
  simp [resetBreaker, BreakerInv]

lemma reachable_breakerInv {cb₀ cb : CircuitBreaker} (h : Reachable cb₀ cb)
    (h₀ : BreakerInv cb₀) : BreakerInv cb := by
  induction h with
  | init => exact h₀
  | stepIsOpen cb now _ ih => exact breakerInv_isOpen cb now ih
  | stepSuccess cb now _ ih => exact breakerInv_recordSuccess cb now ih
  | stepFailure cb now msg etype _ ih => exact breakerInv_recordFailure cb now msg etype ih
  | stepReset cb _ _ => exact breakerInv_reset cb

lemma reachable_threshold {cb₀ cb : CircuitBreaker} (h : Reachable cb₀ cb) :
    cb.failureThreshold = cb₀.failureThreshold := by
  induction h with
  | init => rfl
  | stepIsOpen cb now _ ih =>
    unfold isOpen
    cases cb.state <;> simp [ih]
    cases cb.lastFailureTime <;> simp [ih]
    split <;> simp [ih]
  | stepSuccess cb now _ ih =>
    by_cases hs : cb.state = CircuitState.HalfOpen <;> simp [recordSuccess, hs, ih]
  | stepFailure cb now msg etype _ ih =>
    simp only [recordFailure, tripCircuit]
    split <;> simp [ih]
  | stepReset cb _ ih => simpa [resetBreaker] using ih

/-- C10: from a freshly constructed breaker (any threshold ≥ 1), along
every sequence of `is_open`, `record_success`, `record_failure` and
`reset` calls, whenever the state is Open the failure count is at least
the configured threshold. -/
theorem reachable_open_count_ge_threshold (name : String) (th rt : Nat)
    (acs : Bool) (cb : CircuitBreaker)
    (h : Reachable (mkCircuitBreaker name th rt acs) cb)
    (hth : 1 ≤ th) (hs : cb.state = CircuitState.Open) :
    th ≤ cb.failureCount := by
  have hinv : BreakerInv cb :=
    reachable_breakerInv h (by simp [mkCircuitBreaker, BreakerInv])
  have hthr := reachable_threshold h
  have := hinv (Or.inl hs)
  simpa [hthr, mkCircuitBreaker] using this

/-- C10 (witness): threshold 1; the breaker reached by one
`record_failure` from the initial state is Open with count ≥ 1. -/
theorem reachable_open_count_ge_threshold_witness :
    1 ≤ (recordFailure (mkCircuitBreaker "b" 1 300 false) 0 "x" "E").1.failureCount :=
  reachable_open_count_ge_threshold "b" 1 300 false _
    (Reachable.stepFailure _ 0 "x" "E" Reachable.init) (by decide) (by decide)

/-- C3: for every reachable breaker sitting in HalfOpen, `record_failure`
re-trips it to Open (the installed alert callback fires again), and
`record_success` confirms recovery: state Closed with `failureCount = 0`. -/
theorem halfOpen_probe_outcomes (name : String) (th rt : Nat) (acs : Bool)
    (cb : CircuitBreaker) (h : Reachable (mkCircuitBreaker name th rt acs) cb)
    (hs : cb.state = CircuitState.HalfOpen) (now : Int) (msg etype : String) :
    (recordFailure cb now msg etype).1.state = CircuitState.Open ∧
    (cb.alertCallbackSet = true → (recordFailure cb now msg etype).2 ≠ []) ∧
    (recordSuccess cb now).state = CircuitState.Closed ∧
    (recordSuccess cb now).failureCount = 0 := by
  have hinv : BreakerInv cb :=
    reachable_breakerInv h (by simp [mkCircuitBreaker, BreakerInv])
  have hth : cb.failureThreshold ≤ cb.failureCount + 1 :=
    le_trans (hinv (Or.inr hs)) (Nat.le_succ _)
  refine ⟨?_, ?_, ?_, ?_⟩
  · simp [recordFailure, tripCircuit, hth]
  · intro hcb
    simp [recordFailure, tripCircuit, hth, hcb]
  · simp [recordSuccess, hs]
  · simp [recordSuccess, hs]

/-- C3 (witness): with threshold 1 and a zero recovery timeout, one
failure trips the breaker, a later probe moves it to HalfOpen, and from
there a failure re-trips to Open (alert list nonempty) while a success
would close it with count 0. -/
theorem halfOpen_probe_outcomes_witness :
    ((recordFailure (isOpen (recordFailure (mkCircuitBreaker "b" 1 0 true) 0 "x" "E").1 1).2 2 "y" "E").1.state
        = CircuitState.Open) ∧
    ((isOpen (recordFailure (mkCircuitBreaker "b" 1 0 true) 0 "x" "E").1 1).2.alertCallbackSet = true →
      (recordFailure (isOpen (recordFailure (mkCircuitBreaker "b" 1 0 true) 0 "x" "E").1 1).2 2 "y" "E").2 ≠ []) ∧
    ((recordSuccess (isOpen (recordFailure (mkCircuitBreaker "b" 1 0 true) 0 "x" "E").1 1).2 2).state
        = CircuitState.Closed) ∧
    ((recordSuccess (isOpen (recordFailure (mkCircuitBreaker "b" 1 0 true) 0 "x" "E").1 1).2 2).failureCount
        = 0) :=
  halfOpen_probe_outcomes "b" 1 0 true _
    (Reachable.stepIsOpen _ 1 (Reachable.stepFailure _ 0 "x" "E" Reachable.init))
    (by decide) 2 "y" "E"

/-! ## Validator theorems -/

/-- The violations that scanning `l` finds, with `idx` the index of the
first record: the reference against which the accumulating loop of
`validate_batch` is proved. -/
def specViolationsFrom (now : Int) (idx : Nat) : List CryptoRecord → List Violation
  | [] => []
  | r :: rest =>
    if (validateSingle r now).1 then specViolationsFrom now (idx + 1) rest
    else ⟨idx, r, (validateSingle r now).2, now⟩ :: specViolationsFrom now (idx + 1) rest

/-- Number of invalid records in a batch. -/
def invCount (now : Int) (l : List CryptoRecord) : Nat :=
  (l.filter fun r => !(validateSingle r now).1).length

/-- Number of valid records in a batch. -/
def validCount (now : Int) (l : List CryptoRecord) : Nat :=
  (l.filter fun r => (validateSingle r now).1).length

lemma validCount_add_invCount (now : Int) (l : List CryptoRecord) :
    validCount now l + invCount now l = l.length := by
  induction l with
  | nil => rfl
  | cons r rest ih =>
    by_cases hr : (validateSingle r now).1 <;>
      simp [validCount, invCount, List.filter, hr] at ih ⊢ <;> omega

lemma length_specViolationsFrom (now : Int) (idx : Nat) (l : List CryptoRecord) :
    (specViolationsFrom now idx l).length = invCount now l := by
  induction l generalizing idx with
  | nil => rfl
  | cons r rest ih =>
    by_cases hr : (validateSingle r now).1 <;>
      simpa [specViolationsFrom, invCount, List.filter, hr] using ih (idx + 1)

lemma specViolationsFrom_append (now : Int) (idx : Nat)
    (l₁ l₂ : List CryptoRecord) :
    specViolationsFrom now idx (l₁ ++ l₂)
      = specViolationsFrom now idx l₁ ++ specViolationsFrom now (idx + l₁.length) l₂ := by
  induction l₁ generalizing idx with
  | nil => simp [specViolationsFrom]
  | cons r rest ih =>
    by_cases hr : (validateSingle r now).1 <;>
      simp [specViolationsFrom, hr, ih (idx + 1), Nat.add_assoc, Nat.add_comm 1]

lemma headD_append_cons (vs : List Violation) (v : Violation)
    (t : List Violation) (d : Violation) :
    (vs ++ [v]).headD d = (vs ++ v :: t).headD d := by
  cases vs <;> simp

lemma invCount_cons_valid {now : Int} {r : CryptoRecord}
    (hr : (validateSingle r now).1 = true) (rest : List CryptoRecord) :
    invCount now (r :: rest) = invCount now rest := by
  simp [invCount, List.filter, hr]

lemma invCount_cons_invalid {now : Int} {r : CryptoRecord}
    (hr : ¬(validateSingle r now).1 = true) (rest : List CryptoRecord) :
    invCount now (r :: rest) = invCount now rest + 1 := by
  simp [invCount, List.filter, hr]

/-- Completion without reaching the cap: the loop returns the full valid
count and the accumulated violations of the whole batch, in input order. -/
lemma validateBatchGo_ok (now : Int) (cap : Nat) :
    ∀ (l : List CryptoRecord) (idx vc : Nat) (vs : List Violation),
      vs.length + invCount now l < cap →
      validateBatchGo now false cap l idx vc vs
        = .ok (vc + validCount now l, vs ++ specViolationsFrom now idx l)
  | [], idx, vc, vs, _ => by
    simp [validateBatchGo, validCount, invCount, specViolationsFrom]
  | r :: rest, idx, vc, vs, h => by
    by_cases hr : (validateSingle r now).1
    · rw [invCount_cons_valid hr] at h
      have hrec := validateBatchGo_ok now cap rest (idx + 1) (vc + 1) vs h
      simp [validateBatchGo, hr, hrec, validCount, List.filter, specViolationsFrom]
      omega
    · rw [invCount_cons_invalid hr] at h
      have hrec := validateBatchGo_ok now cap rest (idx + 1) vc
        (vs ++ [⟨idx, r, (validateSingle r now).2, now⟩]) (by simp; omega)
      have hnocap : ¬(cap ≤ vs.length + 1) := by omega
      simp [validateBatchGo, hr, hrec, hnocap, validCount, List.filter,
        specViolationsFrom]

/-- Reaching the cap: the loop raises the aggregated violation error
carrying the cap and the error of the very first violation, and what lies
beyond the record that reached the cap is never consulted. -/
lemma validateBatchGo_abort (now : Int) (cap : Nat) :
    ∀ (l : List CryptoRecord) (idx vc : Nat) (vs : List Violation),
      vs.length < cap → cap ≤ vs.length + invCount now l →
      validateBatchGo now false cap l idx vc vs
        = .error (tooManyMsg cap
            ((vs ++ specViolationsFrom now idx l).headD default).error)
  | [], idx, vc, vs, h1, h2 => by
    simp [invCount] at h2
    omega
  | r :: rest, idx, vc, vs, h1, h2 => by
    by_cases hr : (validateSingle r now).1
    · rw [invCount_cons_valid hr] at h2
      have hrec := validateBatchGo_abort now cap rest (idx + 1) (vc + 1) vs h1 h2
      simp [validateBatchGo, hr, hrec, specViolationsFrom]
    · rw [invCount_cons_invalid hr] at h2
      by_cases hcap : cap ≤ vs.length + 1
      · have hlen : vs.length + 1 = cap := by omega
        simp [validateBatchGo, hr, hcap, hlen, specViolationsFrom]
      · have hrec := validateBatchGo_abort now cap rest (idx + 1) vc
          (vs ++ [⟨idx, r, (validateSingle r now).2, now⟩])
          (by simp; omega) (by simp; omega)
        simp [validateBatchGo, hr, hcap, hrec, specViolationsFrom]

/-- Whatever the loop returns as `.ok` is exactly the full scan: the
valid count and all violations in input order. -/
lemma validateBatchGo_ok_inv (now : Int) (cap : Nat) :
    ∀ (l : List CryptoRecord) (idx vc : Nat) (vs : List Violation)
      (vc' : Nat) (vs' : List Violation),
      validateBatchGo now false cap l idx vc vs = .ok (vc', vs') →
      vc' = vc + validCount now l ∧ vs' = vs ++ specViolationsFrom now idx l
  | [], idx, vc, vs, vc', vs', h => by
    simp [validateBatchGo] at h
    simp [validCount, specViolationsFrom, h.1, h.2]
  | r :: rest, idx, vc, vs, vc', vs', h => by
    by_cases hr : (validateSingle r now).1
    · simp only [validateBatchGo, hr, if_true] at h
      have ih := validateBatchGo_ok_inv now cap rest (idx + 1) (vc + 1) vs vc' vs' h
      refine ⟨?_, ?_⟩
      · rw [ih.1]
        simp [validCount, List.filter, hr]
        omega
      · rw [ih.2]
        simp [specViolationsFrom, hr]
    · by_cases hcap : cap ≤ vs.length + 1
      · simp [validateBatchGo, hr, hcap] at h
      · simp [validateBatchGo, hr, hcap] at h
        have ih := validateBatchGo_ok_inv now cap rest (idx + 1) vc
          (vs ++ [⟨idx, r, (validateSingle r now).2, now⟩]) vc' vs' h
        refine ⟨?_, ?_⟩
        · rw [ih.1]
          simp [validCount, List.filter, hr]
        · rw [ih.2]
          simp [specViolationsFrom, hr]

lemma invCount_append (now : Int) (l₁ l₂ : List CryptoRecord) :
    invCount now (l₁ ++ l₂) = invCount now l₁ + invCount now l₂ := by
  simp [invCount, List.filter_append]

/-- C5: with `failFast = false` and a cap of at least 1, a batch whose
initial segment holds `cap - 1` violations aborts at the very next invalid record,
whatever follows it, raising the aggregated error that carries the cap
and the first violation's message; and a batch that stays under the cap
returns a result listing every violation found, in input order. -/
theorem validate_batch_cap_semantics (cap : Nat) (now : Int) (hcap : 1 ≤ cap) :
    (∀ (pre : List CryptoRecord) (r : CryptoRecord) (rest : List CryptoRecord),
      invCount now pre = cap - 1 → (validateSingle r now).1 = false →
      validateBatch (pre ++ r :: rest) false cap now
        = .error (tooManyMsg cap
            ((specViolationsFrom now 0 (pre ++ [r])).headD default).error)) ∧
    (∀ l : List CryptoRecord, invCount now l < cap →
      ∃ res, validateBatch l false cap now = .ok res ∧
        res.violations = specViolationsFrom now 0 l) := by
  constructor
  · intro pre r rest hpre hr
    have hinv : cap ≤ ([] : List Violation).length + invCount now (pre ++ r :: rest) := by
      have h1 : invCount now (pre ++ r :: rest)
          = invCount now pre + invCount now (r :: rest) := invCount_append now pre _
      have h2 : invCount now (r :: rest) = invCount now rest + 1 :=
        invCount_cons_invalid (by simp [hr]) rest
      simp [h1, h2, hpre]
      omega
    have habort := validateBatchGo_abort now cap (pre ++ r :: rest) 0 0 []
      (by simpa using hcap) hinv
    have hhead : (specViolationsFrom now 0 (pre ++ r :: rest)).headD default
        = (specViolationsFrom now 0 (pre ++ [r])).headD default := by
      rw [specViolationsFrom_append, specViolationsFrom_append]
      have hv : specViolationsFrom now (0 + pre.length) (r :: rest)
          = ⟨0 + pre.length, r, (validateSingle r now).2, now⟩
            :: specViolationsFrom now (0 + pre.length + 1) rest := by
        simp [specViolationsFrom, hr]
      have hv1 : specViolationsFrom now (0 + pre.length) [r]
          = [⟨0 + pre.length, r, (validateSingle r now).2, now⟩] := by
        simp [specViolationsFrom, hr]
      rw [hv, hv1]
      exact (headD_append_cons _ _ _ _).symm
    unfold validateBatch
    rw [habort]
    rw [List.nil_append, hhead]
  · intro l hl
    have hok := validateBatchGo_ok now cap l 0 0 [] (by simpa using hl)
    unfold validateBatch
    rw [hok]
    exact ⟨_, rfl, by simp⟩

/-- C5 (witness): cap 1, a batch of two invalid records (lower-case
symbols): the abort happens at the first record — the second never
contributes — with the aggregate message naming count 1 and the first
violation. -/
theorem validate_batch_cap_semantics_witness :
    validateBatch
        [⟨some "btc", some 100, some 0, none, none⟩,
         ⟨some "eth", some 2500, some 0, none, none⟩] false 1 0
      = .error (tooManyMsg 1
          ((specViolationsFrom 0 0
              [⟨some "btc", some 100, some 0, none, none⟩]).headD default).error) ∧
    (∃ res, validateBatch [(⟨some "btc", some 100, some 0, none, none⟩ : CryptoRecord)] false 2 0
      = .ok res ∧
      res.violations = specViolationsFrom 0 0
        [⟨some "btc", some 100, some 0, none, none⟩]) :=
  ⟨(validate_batch_cap_semantics 1 0 (by decide)).1
      [] ⟨some "btc", some 100, some 0, none, none⟩
      [⟨some "eth", some 2500, some 0, none, none⟩] (by decide) (by decide),
   (validate_batch_cap_semantics 2 0 (by decide)).2
      [⟨some "btc", some 100, some 0, none, none⟩] (by decide)⟩

/-- The 4-record batch of the validator demo shape: two valid records and
two invalid ones (a lower-case symbol and an anomalously high price), all
stamped at validation time 0. -/
def demoBatch : List CryptoRecord :=
  [⟨some "BTC", some 42000, some 0, none, none⟩,
   ⟨some "btc", some 100, some 0, none, none⟩,
   ⟨some "ETH", some 2500, some 0, none, none⟩,
   ⟨some "BTC", some 5000000, some 0, none, none⟩]

lemma validateSingle_BTC42000 :
    validateSingle ⟨some "BTC", some 42000, some 0, none, none⟩ 0 = (true, "") := by
  have hp : priceError (some 42000) = none := by
    simp [priceError, decimalPlacesLe2]
    norm_num
  simp [validateSingle, fieldErrors, hp, symbolError, timestampError,
    volumeError, marketCapError, pyIsUpper] <;> decide

lemma validateSingle_btc100 :
    validateSingle ⟨some "btc", some 100, some 0, none, none⟩ 0
      = (false, "  - symbol: Symbol must be uppercase, got: btc") := by
  have hp : priceError (some 100) = none := by
    simp [priceError, decimalPlacesLe2]
    norm_num
  simp [validateSingle, fieldErrors, hp, symbolError, timestampError,
    volumeError, marketCapError, pyIsUpper] <;> decide

lemma validateSingle_ETH2500 :
    validateSingle ⟨some "ETH", some 2500, some 0, none, none⟩ 0 = (true, "") := by
  have hp : priceError (some 2500) = none := by
    simp [priceError, decimalPlacesLe2]
    norm_num
  simp [validateSingle, fieldErrors, hp, symbolError, timestampError,
    volumeError, marketCapError, pyIsUpper] <;> decide

lemma validateSingle_BTC5M :
    validateSingle ⟨some "BTC", some 5000000, some 0, none, none⟩ 0
      = (false, "  - price: Price suspiciously high: $5000000") := by
  have hp : priceError (some 5000000)
      = some ("Price suspiciously high: $" ++ ratDecimalStr 5000000) := by
    simp [priceError, decimalPlacesLe2]
    norm_num
  have hr : ratDecimalStr 5000000 = "5000000" := by
    have hd : ((5000000 : ℚ)).den = 1 := by norm_num
    have hn : ((5000000 : ℚ)).num = 5000000 := by norm_num
    simp [ratDecimalStr, hd, hn]
    decide
  simp [validateSingle, fieldErrors, hp, hr, symbolError, timestampError,
    volumeError, marketCapError, pyIsUpper] <;> decide

lemma invCount_demoBatch : invCount 0 demoBatch = 2 := by
  simp [invCount, demoBatch, List.filter, validateSingle_BTC42000,
    validateSingle_btc100, validateSingle_ETH2500, validateSingle_BTC5M]

lemma validCount_demoBatch : validCount 0 demoBatch = 2 := by
  simp [validCount, demoBatch, List.filter, validateSingle_BTC42000,
    validateSingle_btc100, validateSingle_ETH2500, validateSingle_BTC5M]

lemma fmtTenths_fifty : fmtTenths 50 = "50.0" := by
  have h : roundHalfEven ((50 : ℚ) * 10) = 500 := by
    rw [show ((50 : ℚ) * 10) = 500 by norm_num]
    simp [roundHalfEven]
  simp [fmtTenths, h]
  decide

/-- The result dict that `validate_batch` produces on the demo batch. -/
def demoResult : BatchResult :=
  ⟨false, 4, 2, 2,
   [⟨1, ⟨some "btc", some 100, some 0, none, none⟩,
      "  - symbol: Symbol must be uppercase, got: btc", 0⟩,
    ⟨3, ⟨some "BTC", some 5000000, some 0, none, none⟩,
      "  - price: Price suspiciously high: $5000000", 0⟩],
   1/2, "⚠️  2/4 records failed validation (50.0%)\nValid: 2, Invalid: 2"⟩

lemma validateBatch_demoBatch :
    validateBatch demoBatch false 10 0 = .ok demoResult := by
  have hok := validateBatchGo_ok 0 10 demoBatch 0 0 [] (by simp [invCount_demoBatch])
  have hsum : generateSummary 4 2 2
      = "⚠️  2/4 records failed validation (50.0%)\nValid: 2, Invalid: 2" := by
    have h50 : (((2 : ℕ) : ℚ) / ((4 : ℕ) : ℚ)) * 100 = 50 := by norm_num
    simp only [generateSummary]
    rw [if_neg (by decide)]
    rw [h50, fmtTenths_fifty]
    decide
  unfold validateBatch
  rw [hok, validCount_demoBatch]
  simp only [List.nil_append]
  norm_num [demoBatch, specViolationsFrom, validateSingle_BTC42000,
    validateSingle_btc100, validateSingle_ETH2500, validateSingle_BTC5M,
    demoResult, hsum]

/-- C8: whenever `validate_batch` (non-fail-fast) returns a result, the
counts reconcile — `total = valid + invalid`, the violation rate is
`invalid / total` (0 for an empty batch), and the violations list has
exactly `invalid` entries; concretely, the 4-record batch with 2 invalid
records under cap 10 yields `total = 4`, `invalid = 2`, rate `1/2`. -/
theorem validate_batch_result_arithmetic :
    (∀ (l : List CryptoRecord) (cap : Nat) (now : Int) (res : BatchResult),
      validateBatch l false cap now = .ok res →
      res.totalRecords = res.validRecords + res.invalidRecords ∧
      res.violationRate = (if res.totalRecords = 0 then 0
        else (res.invalidRecords : ℚ) / (res.totalRecords : ℚ)) ∧
      res.violations.length = res.invalidRecords) ∧
    (∃ res, validateBatch demoBatch false 10 0 = .ok res ∧
      res.totalRecords = 4 ∧ res.invalidRecords = 2 ∧
      res.violationRate = 1 / 2) := by
  constructor
  · intro l cap now res h
    unfold validateBatch at h
    cases hgo : validateBatchGo now false cap l 0 0 [] with
    | error e => rw [hgo] at h; cases h
    | ok p =>
      obtain ⟨vc, vs⟩ := p
      rw [hgo] at h
      have hinv := validateBatchGo_ok_inv now cap l 0 0 [] vc vs hgo
      have hvc : vc = validCount now l := by simpa using hinv.1
      have hvs : vs = specViolationsFrom now 0 l := by simpa using hinv.2
      have hle : validCount now l ≤ l.length := by
        have := validCount_add_invCount now l
        omega
      have hres : res = ⟨l.length - vc == 0, l.length, vc, l.length - vc, vs,
          if 0 < l.length then ((l.length - vc : Nat) : ℚ) / (l.length : ℚ) else 0,
          generateSummary l.length vc (l.length - vc)⟩ := by
        cases h
        rfl
      subst hres
      refine ⟨?_, ?_, ?_⟩
      · simp
        omega
      · rcases Nat.eq_zero_or_pos l.length with h0 | h0
        · simp [h0]
        · simp [h0, Nat.pos_iff_ne_zero.mp h0]
      · simp [hvs, length_specViolationsFrom, hvc]
        have := validCount_add_invCount now l
        omega
  · exact ⟨demoResult, validateBatch_demoBatch, rfl, rfl, rfl⟩

/-- C8 (witness): the law applied to the concrete demo batch. -/
theorem validate_batch_result_arithmetic_witness :
    demoResult.totalRecords = demoResult.validRecords + demoResult.invalidRecords ∧
    demoResult.violations.length = demoResult.invalidRecords :=
  ⟨(validate_batch_result_arithmetic.1 demoBatch 10 0 demoResult
      validateBatch_demoBatch).1,
   (validate_batch_result_arithmetic.1 demoBatch 10 0 demoResult
      validateBatch_demoBatch).2.2⟩

/-- C9: at any validation time `now`, `validate_single` rejects the
lower-case-symbol record (naming the symbol rule), rejects the
5,000,000-price record (naming the price-anomaly rule), and accepts
`{symbol: "BTC", price: 42000.50, timestamp: now, volume: 1234567.89}`
with `(True, "")`. -/
theorem validate_single_examples (now : Int) :
    validateSingle ⟨some "btc", some 100, some now, none, none⟩ now
      = (false, "  - symbol: Symbol must be uppercase, got: btc") ∧
    validateSingle ⟨some "BTC", some 5000000, some now, none, none⟩ now
      = (false, "  - price: Price suspiciously high: $5000000") ∧
    validateSingle ⟨some "BTC", some (42000.5 : ℚ), some now, some (1234567.89 : ℚ), none⟩ now
      = (true, "") := by
  have hts : timestampError (some now) now = none := by
    simp [timestampError]
  have hp1 : priceError (some 100) = none := by
    simp [priceError, decimalPlacesLe2]
    norm_num
  have hp2 : priceError (some 5000000)
      = some ("Price suspiciously high: $" ++ ratDecimalStr 5000000) := by
    simp [priceError, decimalPlacesLe2]
    norm_num
  have hr2 : ratDecimalStr 5000000 = "5000000" := by
    have hd : ((5000000 : ℚ)).den = 1 := by norm_num
    have hn : ((5000000 : ℚ)).num = 5000000 := by norm_num
    simp [ratDecimalStr, hd, hn]
    decide
  have hp3 : priceError (some (42000.5 : ℚ)) = none := by
    simp [priceError, decimalPlacesLe2]
    norm_num
  have hv3 : volumeError (some (1234567.89 : ℚ)) = none := by
    simp [volumeError]
    norm_num
  refine ⟨?_, ?_, ?_⟩ <;>
    simp [validateSingle, fieldErrors, hts, hp1, hp2, hr2, hp3, hv3] <;>
    decide

/-! ## Pipeline theorems -/

lemma isOpen_true_fix (cb : CircuitBreaker) (now : Int) :
    (isOpen cb now).1 = true → (isOpen cb now).2 = cb := by
  cases hs : cb.state <;> simp [isOpen, hs]
  cases ht : cb.lastFailureTime <;> simp [ht]
  split <;> simp

/-- C2: while the gate is closed, any stage failure is absorbed: `run`
returns (without raising) a failed result carrying the stage-naming error
message and the breaker's state after exactly one `record_failure`; a true
gate check instead surfaces as the raised `CircuitBreakerError`, leaving
the breaker untouched. -/
theorem run_failure_policy (cb : CircuitBreaker) (env : PipelineEnv)
    (validateData : Bool) (now : Int) :
    ((isOpen cb now).1 = true →
      run cb env validateData now = ⟨.error (circuitOpenMsg cb), cb, []⟩) ∧
    (∀ st msg, (isOpen cb now).1 = false →
      firstFailure env validateData now = some (st, msg) →
      run cb env validateData now
        = ⟨.ok (.failed msg
              ((recordFailure (isOpen cb now).2 now msg "Exception").1).state.value
              ((recordFailure (isOpen cb now).2 now msg "Exception").1).failureCount),
           (recordFailure (isOpen cb now).2 now msg "Exception").1,
           (if st = Stage.Load then
              [PipelineEvent.wroteRecords env.records "crypto_prices"] else [])
             ++ [.recordedFailure msg]⟩ ∧
      stageNamedBy st msg ∧
      (run cb env validateData now).events.countP isFailureEvent = 1) := by
  constructor
  · intro hgate
    have hfix := isOpen_true_fix cb now hgate
    simp [run, hgate, hfix]
  · intro st msg hgate hff
    by_cases h1 : env.sourceStatus.status = "success"
    case neg =>
      simp [firstFailure, h1] at hff
      obtain ⟨hst, hmsg⟩ := hff
      subst hst hmsg
      refine ⟨?_, Or.inl ⟨_, rfl⟩, ?_⟩ <;>
        simp [run, hgate, h1, runFailed, isFailureEvent]
    case pos =>
    by_cases h2 : env.destStatus.status = "success"
    case neg =>
      simp [firstFailure, h1, h2] at hff
      obtain ⟨hst, hmsg⟩ := hff
      subst hst hmsg
      refine ⟨?_, Or.inr ⟨_, rfl⟩, ?_⟩ <;>
        simp [run, hgate, h1, h2, runFailed, isFailureEvent]
    case pos =>
    by_cases h3 : env.records.isEmpty
    case pos =>
      simp [firstFailure, h1, h2, h3] at hff
      obtain ⟨hst, hmsg⟩ := hff
      subst hst hmsg
      refine ⟨?_, rfl, ?_⟩ <;>
        simp [run, hgate, h1, h2, h3, runFailed, isFailureEvent]
    case neg =>
    by_cases h5 : validateData
    case pos =>
      cases hvb : validateBatch (convertRecords env.records now) false 5 now with
      | error e =>
        simp [firstFailure, h1, h2, h3, h5, hvb] at hff
        obtain ⟨hst, hmsg⟩ := hff
        subst hst hmsg
        refine ⟨?_, ⟨_, rfl⟩, ?_⟩ <;>
          simp [run, hgate, h1, h2, h3, h5, hvb, runFailed, isFailureEvent]
      | ok vr =>
        by_cases h4 : env.writeResult.status = "success"
        case pos =>
          simp [firstFailure, h1, h2, h3, h5, hvb, h4] at hff
        case neg =>
          simp [firstFailure, h1, h2, h3, h5, hvb, h4] at hff
          obtain ⟨hst, hmsg⟩ := hff
          subst hst hmsg
          refine ⟨?_, ⟨_, rfl⟩, ?_⟩ <;>
            simp [run, runLoad, hgate, h1, h2, h3, h5, hvb, h4, runFailed,
              isFailureEvent]
    case neg =>
      by_cases h4 : env.writeResult.status = "success"
      case pos =>
        simp [firstFailure, h1, h2, h3, h5, h4] at hff
      case neg =>
        simp [firstFailure, h1, h2, h3, h5, h4] at hff
        obtain ⟨hst, hmsg⟩ := hff
        subst hst hmsg
        refine ⟨?_, ⟨_, rfl⟩, ?_⟩ <;>
          simp [run, runLoad, hgate, h1, h2, h3, h5, h4, runFailed, isFailureEvent]

/-- C2 (witness): with a fresh breaker and a source whose connection check
reports failure, the run returns a failed result naming the connection
stage and records exactly one breaker failure. -/
theorem run_failure_policy_witness :
    stageNamedBy Stage.ConnectionCheck "Source connection failed: down" ∧
    (run (mkCircuitBreaker "crypto_ingestion" 3 300 true)
        ⟨⟨"failed", "down"⟩, ⟨"success", "ok"⟩, [],
         ⟨"success", 0, "f", none⟩⟩ true 0).events.countP isFailureEvent = 1 :=
  ⟨((run_failure_policy (mkCircuitBreaker "crypto_ingestion" 3 300 true)
      ⟨⟨"failed", "down"⟩, ⟨"success", "ok"⟩, [], ⟨"success", 0, "f", none⟩⟩ true 0).2
      Stage.ConnectionCheck "Source connection failed: down" rfl rfl).2.1,
   ((run_failure_policy (mkCircuitBreaker "crypto_ingestion" 3 300 true)
      ⟨⟨"failed", "down"⟩, ⟨"success", "ok"⟩, [], ⟨"success", 0, "f", none⟩⟩ true 0).2
      Stage.ConnectionCheck "Source connection failed: down" rfl rfl).2.2⟩

/-- C6: when validation returns a result (no aggregate abort) the load
stage is handed the original extracted record set, unfiltered, whatever
the result's invalid count. -/
theorem run_loads_original_records (cb : CircuitBreaker) (env : PipelineEnv)
    (now : Int) (vr : BatchResult)
    (hgate : (isOpen cb now).1 = false)
    (hsrc : env.sourceStatus.status = "success")
    (hdst : env.destStatus.status = "success")
    (hrec : env.records.isEmpty = false)
    (hval : validateBatch (convertRecords env.records now) false 5 now = .ok vr) :
    ∃ rest, (run cb env true now).events
      = PipelineEvent.wroteRecords env.records "crypto_prices" :: rest := by
  by_cases hw : env.writeResult.status = "success" <;>
    simp [run, runLoad, runFailed, hgate, hsrc, hdst, hrec, hval, hw]

/-- A healthy environment whose extraction yields one valid and one
invalid record (lower-case symbol). -/
def sampleEnv : PipelineEnv :=
  ⟨⟨"success", "ok"⟩, ⟨"success", "ok"⟩,
   [⟨some "BTC", some 42000, none, none⟩, ⟨some "btc", some 100, none, none⟩],
   ⟨"success", 2, "s3://bucket/file", none⟩⟩

lemma convert_sampleEnv :
    convertRecords sampleEnv.records 0
      = [⟨some "BTC", some 42000, some 0, none, none⟩,
         ⟨some "btc", some 100, some 0, none, none⟩] := rfl

/-- The validation result on `sampleEnv`'s converted records: one invalid
record, under the cap of 5, so no abort. -/
def sampleBatchResult : BatchResult :=
  ⟨false, 2, 1, 1,
   [⟨1, ⟨some "btc", some 100, some 0, none, none⟩,
      "  - symbol: Symbol must be uppercase, got: btc", 0⟩],
   1/2, "⚠️  1/2 records failed validation (50.0%)\nValid: 1, Invalid: 1"⟩

lemma validateBatch_sampleEnv :
    validateBatch (convertRecords sampleEnv.records 0) false 5 0
      = .ok sampleBatchResult := by
  rw [convert_sampleEnv]
  have hinv : invCount 0
      [⟨some "BTC", some 42000, some 0, none, none⟩,
       ⟨some "btc", some 100, some 0, none, none⟩] = 1 := by
    simp [invCount, List.filter, validateSingle_BTC42000, validateSingle_btc100]
  have hval : validCount 0
      [⟨some "BTC", some 42000, some 0, none, none⟩,
       ⟨some "btc", some 100, some 0, none, none⟩] = 1 := by
    simp [validCount, List.filter, validateSingle_BTC42000, validateSingle_btc100]
  have hok := validateBatchGo_ok 0 5
    [⟨some "BTC", some 42000, some 0, none, none⟩,
     ⟨some "btc", some 100, some 0, none, none⟩] 0 0 [] (by simp [hinv])
  have hsum : generateSummary 2 1 1
      = "⚠️  1/2 records failed validation (50.0%)\nValid: 1, Invalid: 1" := by
    have h50 : (((1 : ℕ) : ℚ) / ((2 : ℕ) : ℚ)) * 100 = 50 := by norm_num
    simp only [generateSummary]
    rw [if_neg (by decide)]
    rw [h50, fmtTenths_fifty]
    decide
  unfold validateBatch
  rw [hok, hval]
  simp only [List.nil_append]
  norm_num [specViolationsFrom, validateSingle_BTC42000, validateSingle_btc100,
    sampleBatchResult, hsum]

/-- C6 (witness): on `sampleEnv` (one invalid record reported, no abort)
the write call receives the two original extracted records. -/
theorem run_loads_original_records_witness :
    ∃ rest, (run (mkCircuitBreaker "crypto_ingestion" 3 300 true) sampleEnv true 0).events
      = PipelineEvent.wroteRecords sampleEnv.records "crypto_prices" :: rest :=
  run_loads_original_records (mkCircuitBreaker "crypto_ingestion" 3 300 true)
    sampleEnv 0 sampleBatchResult rfl rfl rfl rfl validateBatch_sampleEnv

end Fortress
